import Mathlib

/-!
Shallow embedding of the windowed polling controller in `src/vuegraf.py`.

Timestamps are modelled as integer seconds (the code aligns all window
boundaries to whole seconds via `replace(microsecond=0)` and truncates
persisted timestamps to whole seconds before comparison).  Counts are
Python ints, modelled as `Int`.
-/

namespace Vuegraf

/-- `INTERVAL_SECS` from the source: delay between pulls. -/
def INTERVAL_SECS : Int := 60

/-- `FAILURE_SECS` from the source: shorter delay after a failed pull. -/
def FAILURE_SECS : Int := 20

/-- `SUCCESS_THRESHOLD` from the source: allowed missing points. -/
def SUCCESS_THRESHOLD : Int := 5

/-- `SUCCESS_THRESHOLD2` from the source: allowed min/max spread. -/
def SUCCESS_THRESHOLD2 : Int := 10

/-- Embeds `check_failed_pull(min_points, max_points, pull_duration)`
(vuegraf.py lines 139-167).  `pull_duration_seconds` stands for
`pull_duration.seconds`.  Returns `true` when the pull FAILED. -/
def check_failed_pull (min_points max_points pull_duration_seconds : Int) : Bool :=
  let missing_points := pull_duration_seconds - max_points
  if missing_points > SUCCESS_THRESHOLD then
    true
  else
    let delta_points := max_points - min_points
    if delta_points > SUCCESS_THRESHOLD2 then
      true
    else
      false

/-- Per-source polling state carried across iterations of the `while running`
loop (vuegraf.py lines 239-400), for one account: `start` is the local
variable `start`, `endT` is `account['end']`, `failed_run` is
`S.failed_run`. -/
structure LoopState where
  start : Int
  endT : Int
  failed_run : Nat
deriving Repr, DecidableEq

/-- Outcome of the body of the `try` block for one cycle: either the pull
returned channel statistics (`channel_min`, `channel_max`, and the number of
collected data points), or an exception was raised (lines 380-395). -/
inductive PullResult where
  | samples (channel_min channel_max : Int) (numPoints : Nat)
  | exception
deriving Repr, DecidableEq

/-- The window start used by a cycle (lines 277-285): when the previous run
succeeded (`failed_run = 0`) the prior `end` becomes the new start; otherwise
the previous start is reused so the new pull re-covers the failed slot. -/
def windowStart (st : LoopState) : Int :=
  if st.failed_run = 0 then st.endT else st.start

/-- One non-first iteration of the per-account body (lines 276-395).
`tmpEnd` is `tmpEndingTime = utcnow() - lag` truncated to seconds.  Returns
`none` when `assert(tmpEndingTime > start)` on line 280 fails (which crashes
the process, as the assert sits outside the `try`), otherwise the updated
state together with `some n` when `influx.write_points` ran with `n` points
and `none` when the cycle was abandoned by `continue` or the exception
handler. -/
def cycleStep (st : LoopState) (tmpEnd : Int) (pull : PullResult) :
    Option (LoopState × Option Nat) :=
  if st.failed_run = 0 ∧ ¬ tmpEnd > windowStart st then
    none
  else
    match pull with
    | .exception =>
        some ({ start := windowStart st, endT := tmpEnd, failed_run := 1 }, none)
    | .samples channel_min channel_max numPoints =>
        if check_failed_pull channel_min channel_max (tmpEnd - windowStart st) then
          if st.failed_run + 1 > 3 then
            some ({ start := windowStart st, endT := tmpEnd, failed_run := 0 }, some numPoints)
          else
            some ({ start := windowStart st, endT := tmpEnd, failed_run := st.failed_run + 1 }, none)
        else
          some ({ start := windowStart st, endT := tmpEnd, failed_run := 0 }, some numPoints)

/-- Inter-iteration sleep (line 398): the failure interval when any failure
is pending, else the configured interval. -/
def sleepSeconds (failed_run : Nat) (interval : Int) : Int :=
  if failed_run ≠ 0 then FAILURE_SECS else interval

/-- One cycle's inputs when the pull returns statistics (no exception):
the lagged wall-clock end and the channel min/max/point counts. -/
structure CycleInput where
  tmpEnd : Int
  channel_min : Int
  channel_max : Int
  numPoints : Nat
deriving Repr, DecidableEq

/-- The pull result carried by a `CycleInput`. -/
def CycleInput.pull (c : CycleInput) : PullResult :=
  .samples c.channel_min c.channel_max c.numPoints

/-- Runs a sequence of non-first cycles, collecting for each the window
`[start, end)` that `get_usage_over_time` was called with (line 320);
`none` when some cycle's assert crashed the process. -/
def runCyclesW : LoopState → List CycleInput → Option (LoopState × List (Int × Int))
  | st, [] => some (st, [])
  | st, c :: rest =>
    match cycleStep st c.tmpEnd c.pull with
    | none => none
    | some (st', _) =>
        match runCyclesW st' rest with
        | none => none
        | some (fin, ws) => some (fin, (st'.start, st'.endT) :: ws)

/-- Spec-side predicate (not from the source): every cycle of the sequence,
run from a clean state, sees an advanced clock and passes the quality
check, i.e. every pull is accepted. -/
def allAccepted : LoopState → List CycleInput → Bool
  | _, [] => true
  | st, c :: rest =>
    (decide (st.endT < c.tmpEnd) &&
      !(check_failed_pull c.channel_min c.channel_max (c.tmpEnd - st.endT))) &&
    allAccepted { start := st.endT, endT := c.tmpEnd, failed_run := 0 } rest

/-- Spec-side description of the gapless window chain: each window starts at
the previous window's end, starting from `e0`. -/
def windowsOf (e0 : Int) : List CycleInput → List (Int × Int)
  | [] => []
  | c :: rest => (e0, c.tmpEnd) :: windowsOf c.tmpEnd rest

/-- The final window end of a cycle sequence (or `e0` when empty). -/
def lastEnd (e0 : Int) : List CycleInput → Int
  | [] => e0
  | c :: rest => lastEnd c.tmpEnd rest

/-- State shared by ALL accounts in the source: `S.failed_run` (the single
`Stat` instance, line 237) and the loop-local variable `start`, which is
only reassigned on the success path (line 279) and otherwise retains the
value left by the previous account or iteration. -/
structure SharedState where
  failed_run : Nat
  startVar : Int
deriving Repr, DecidableEq

/-- The window start the per-account body computes (lines 277-285) given the
shared state and this account's own `account['end']`. -/
def acctWindowStart (sh : SharedState) (acctEnd : Int) : Int :=
  if sh.failed_run = 0 then acctEnd else sh.startVar

/-- Result of one account's body within an iteration: updated shared state,
this account's new `account['end']`, the window passed to the usage query,
and the committed point count (if any). -/
structure AcctOutcome where
  shared : SharedState
  acctEnd : Int
  window : Int × Int
  written : Option Nat
deriving Repr, DecidableEq

/-- The per-account body (lines 276-395) with the cross-account sharing made
explicit: the same `cycleStep` logic, but `failed_run` and the `start`
variable live in `SharedState` while `account['end']` is per-account. -/
def acctStep (sh : SharedState) (acctEnd tmpEnd : Int) (pull : PullResult) :
    Option AcctOutcome :=
  if sh.failed_run = 0 ∧ ¬ tmpEnd > acctWindowStart sh acctEnd then
    none
  else
    match pull with
    | .exception =>
        some { shared := { failed_run := 1, startVar := acctWindowStart sh acctEnd },
               acctEnd := tmpEnd, window := (acctWindowStart sh acctEnd, tmpEnd),
               written := none }
    | .samples channel_min channel_max numPoints =>
        if check_failed_pull channel_min channel_max (tmpEnd - acctWindowStart sh acctEnd) then
          if sh.failed_run + 1 > 3 then
            some { shared := { failed_run := 0, startVar := acctWindowStart sh acctEnd },
                   acctEnd := tmpEnd, window := (acctWindowStart sh acctEnd, tmpEnd),
                   written := some numPoints }
          else
            some { shared := { failed_run := sh.failed_run + 1, startVar := acctWindowStart sh acctEnd },
                   acctEnd := tmpEnd, window := (acctWindowStart sh acctEnd, tmpEnd),
                   written := none }
        else
          some { shared := { failed_run := 0, startVar := acctWindowStart sh acctEnd },
                 acctEnd := tmpEnd, window := (acctWindowStart sh acctEnd, tmpEnd),
                 written := some numPoints }

/-- Result of one scheduler iteration over two configured accounts. -/
structure TwoAccountOutcome where
  shared : SharedState
  aEnd : Int
  bEnd : Int
  winA : Int × Int
  winB : Int × Int
deriving Repr, DecidableEq

/-- One `while running` iteration with two accounts (the
`for account in config["accounts"]` loop, line 244), processing account A
then account B against the shared `Stat`/`start` state. -/
def twoAccountIteration (sh : SharedState) (aEnd bEnd ta tb : Int)
    (pa pb : PullResult) : Option TwoAccountOutcome :=
  match acctStep sh aEnd ta pa with
  | none => none
  | some ra =>
      match acctStep ra.shared bEnd tb pb with
      | none => none
      | some rb =>
          some { shared := rb.shared, aEnd := ra.acctEnd, bEnd := rb.acctEnd,
                 winA := ra.window, winB := rb.window }

/-- The device index of one account together with a counter of how many
times `populateDevices` ran.  `deviceIds` models the key set of
`account['deviceIdMap']`; `api` is the device list `get_devices()` returns
during a refresh (lines 72-104 reduced to the identity bookkeeping the
lookup logic depends on). -/
structure DeviceIndexState where
  deviceIds : List Nat
  refreshCount : Nat
deriving Repr, DecidableEq

/-- `populateDevices` (lines 72-104): rebuilds `deviceIdMap` from the API's
current device list and counts the external discovery call. -/
def populateDevices (api : List Nat) (st : DeviceIndexState) : DeviceIndexState :=
  { deviceIds := api, refreshCount := st.refreshCount + 1 }

/-- Index effect of `lookupDeviceName` (lines 106-114): refresh when the
device id is missing from the map. -/
def lookupDeviceName (api : List Nat) (st : DeviceIndexState) (device_gid : Nat) :
    DeviceIndexState :=
  if st.deviceIds.contains device_gid then st else populateDevices api st

/-- Index effect of `lookupChannelName` (lines 117-136): its own missing-id
refresh (lines 119-120), then the nested `lookupDeviceName` call (line 122)
which re-checks and may refresh again. -/
def lookupChannelName (api : List Nat) (st : DeviceIndexState) (device_gid : Nat) :
    DeviceIndexState :=
  lookupDeviceName api
    (if st.deviceIds.contains device_gid then st else populateDevices api st)
    device_gid

/-- Index effect of one poll cycle's channel loop (lines 315-316): look up
every channel's device id in order. -/
def processChannels (api : List Nat) (st : DeviceIndexState) (gids : List Nat) :
    DeviceIndexState :=
  gids.foldl (lookupChannelName api) st

/-- The per-channel committal loop (lines 321-336): walks the usage series,
drops nulls, and stamps the `index`-th committed reading with
`start + index` seconds, where `index` counts only prior non-null readings.
Watts values are opaque (`α`). -/
def collectChannel {α : Type} (start : Int) (index : Nat) :
    List (Option α) → List (Int × α)
  | [] => []
  | none :: rest => collectChannel start index rest
  | some w :: rest => (start + index, w) :: collectChannel start (index + 1) rest

/-- One channel's committed data points for a pull starting at `start`
(`index` starts at 0, line 321). -/
def collectPoints {α : Type} (start : Int) (usage : List (Option α)) :
    List (Int × α) :=
  collectChannel start 0 usage

/-- Number of non-null readings in a series. -/
def countSome {α : Type} (l : List (Option α)) : Nat :=
  l.countP (fun x => x.isSome)

/-- Number of null readings in a series. -/
def countNone {α : Type} (l : List (Option α)) : Nat :=
  l.countP (fun x => x.isNone)

/-- Truncation of a persisted sink timestamp to whole seconds: the code
chops the fractional part with `timeStr[:19]` (lines 269-273). -/
def truncateTimestamp (secs : Int) (micros : Nat) : Int :=
  secs

/-- First-iteration window-start seeding (lines 262-275): start from
`computedEnd - interval`; when the sink query returned a last timestamp,
truncate it to seconds and use it when it lies strictly after the naive
start. -/
def initializeStart (computedEnd interval : Int) (persisted : Option (Int × Nat)) : Int :=
  match persisted with
  | none => computedEnd - interval
  | some (s, us) =>
      if truncateTimestamp s us > computedEnd - interval then truncateTimestamp s us
      else computedEnd - interval

end Vuegraf

namespace Vuegraf

/-- Every state produced by a cycle has the computed window as its
start/end: `start` is the cycle's window start and `endT` the (lagged,
second-aligned) wall-clock end. -/
theorem cycleStep_start_end (st : LoopState) (tmpEnd : Int) (pull : PullResult)
    (st' : LoopState) (written : Option Nat)
    (h : cycleStep st tmpEnd pull = some (st', written)) :
    st'.start = windowStart st ∧ st'.endT = tmpEnd := by
  cases pull with
  | exception =>
      simp only [cycleStep] at h
      split at h
      · exact absurd h (by simp)
      · simp only [Option.some.injEq, Prod.mk.injEq] at h
        obtain ⟨h1, _⟩ := h
        subst h1
        exact ⟨rfl, rfl⟩
  | samples mn mx pts =>
      simp only [cycleStep] at h
      split at h
      · exact absurd h (by simp)
      · split at h
        · split at h
          · simp only [Option.some.injEq, Prod.mk.injEq] at h
            obtain ⟨h1, _⟩ := h
            subst h1
            exact ⟨rfl, rfl⟩
          · simp only [Option.some.injEq, Prod.mk.injEq] at h
            obtain ⟨h1, _⟩ := h
            subst h1
            exact ⟨rfl, rfl⟩
        · simp only [Option.some.injEq, Prod.mk.injEq] at h
          obtain ⟨h1, _⟩ := h
          subst h1
          exact ⟨rfl, rfl⟩

/-- If a cycle from a clean state (streak 0) completed, the line-280 assert
passed, so the clock had advanced past the window start. -/
theorem cycleStep_assert_passed (st : LoopState) (tmpEnd : Int)
    (pull : PullResult) (r : LoopState × Option Nat)
    (h : cycleStep st tmpEnd pull = some r) (h0 : st.failed_run = 0) :
    tmpEnd > windowStart st := by
  unfold cycleStep at h
  split at h
  · exact absurd h (by simp)
  · next hc =>
      by_contra hng
      exact hc ⟨h0, hng⟩

/-- The window chain promised by `windowsOf` is gapless: each window's start
is the previous window's end. -/
theorem windowsOf_chain (l : List CycleInput) :
    ∀ e0 : Int,
      List.Chain' (fun a b : Int × Int => a.2 = b.1) (windowsOf e0 l) := by
  induction l with
  | nil =>
      intro e0
      simp [windowsOf]
  | cons c rest ih =>
      intro e0
      cases rest with
      | nil => simp [windowsOf]
      | cons c2 r2 =>
          simp only [windowsOf]
          rw [List.chain'_cons]
          refine ⟨rfl, ?_⟩
          have h := ih c.tmpEnd
          simpa [windowsOf] using h

/-- Telescoping: the durations of a gapless window chain sum to the span
from the chain's first start to its last end. -/
theorem windowsOf_sum (l : List CycleInput) :
    ∀ e0 : Int,
      ((windowsOf e0 l).map (fun w => w.2 - w.1)).sum = lastEnd e0 l - e0 := by
  induction l with
  | nil =>
      intro e0
      simp [windowsOf, lastEnd]
  | cons c rest ih =>
      intro e0
      simp only [windowsOf, lastEnd, List.map_cons, List.sum_cons]
      rw [ih c.tmpEnd]
      ring

/-- Running a sequence of accepted cycles from a clean state succeeds, uses
exactly the gapless window chain starting at the prior end, and finishes at
the last window's end with a clean streak. -/
theorem runAccepted_aux (inputs : List CycleInput) :
    ∀ st : LoopState, st.failed_run = 0 → allAccepted st inputs = true →
      ∃ fin, runCyclesW st inputs = some (fin, windowsOf st.endT inputs) ∧
        fin.failed_run = 0 ∧ fin.endT = lastEnd st.endT inputs := by
  induction inputs with
  | nil =>
      intro st h0 _
      exact ⟨st, by simp [runCyclesW, windowsOf], h0, by simp [lastEnd]⟩
  | cons c rest ih =>
      intro st h0 hacc
      simp only [allAccepted, Bool.and_eq_true, Bool.not_eq_true',
        decide_eq_true_eq] at hacc
      obtain ⟨⟨hlt, hchk⟩, hrest⟩ := hacc
      have hws : windowStart st = st.endT := by
        unfold windowStart
        simp [h0]
      have hcond : ¬ (st.failed_run = 0 ∧ ¬ c.tmpEnd > windowStart st) := by
        rw [hws]
        intro hcontra
        exact hcontra.2 hlt
      have hstep : cycleStep st c.tmpEnd c.pull =
          some ({ start := st.endT, endT := c.tmpEnd, failed_run := 0 },
            some c.numPoints) := by
        simp [cycleStep, CycleInput.pull, hcond, hws, hchk]
        exact fun _ => hlt
      obtain ⟨fin, hrun, hfr, hfe⟩ :=
        ih { start := st.endT, endT := c.tmpEnd, failed_run := 0 } rfl hrest
      refine ⟨fin, ?_, hfr, ?_⟩
      · simp only [runCyclesW, hstep, hrun]
        simp [windowsOf]
      · simpa [lastEnd] using hfe

/-- C2: over any run of consecutive accepted cycles from a clean state, the
windows actually queried chain exactly (each start equals the prior end,
starting from the previous cycle's end), and the total covered span equals
the sum of the per-cycle window durations. -/
theorem claim_C2_accepted_windows_gapless (st : LoopState)
    (inputs : List CycleInput) (h0 : st.failed_run = 0)
    (hacc : allAccepted st inputs = true) :
    ∃ fin, runCyclesW st inputs = some (fin, windowsOf st.endT inputs) ∧
      fin.failed_run = 0 ∧
      List.Chain' (fun a b : Int × Int => a.2 = b.1) (windowsOf st.endT inputs) ∧
      fin.endT - st.endT =
        ((windowsOf st.endT inputs).map (fun w => w.2 - w.1)).sum := by
  obtain ⟨fin, hrun, hfr, hfe⟩ := runAccepted_aux inputs st h0 hacc
  refine ⟨fin, hrun, hfr, windowsOf_chain inputs st.endT, ?_⟩
  rw [windowsOf_sum inputs st.endT, hfe]

/-- C2 witness: two concrete accepted 60-second cycles chain without gap and
cover 120 seconds. -/
theorem claim_C2_witness :
    ∃ fin,
      runCyclesW { start := 40, endT := 100, failed_run := 0 }
          [{ tmpEnd := 160, channel_min := 58, channel_max := 60, numPoints := 118 },
           { tmpEnd := 220, channel_min := 60, channel_max := 60, numPoints := 120 }] =
        some (fin,
          windowsOf 100
            [{ tmpEnd := 160, channel_min := 58, channel_max := 60, numPoints := 118 },
             { tmpEnd := 220, channel_min := 60, channel_max := 60, numPoints := 120 }]) ∧
      fin.failed_run = 0 ∧
      List.Chain' (fun a b : Int × Int => a.2 = b.1)
        (windowsOf 100
          [{ tmpEnd := 160, channel_min := 58, channel_max := 60, numPoints := 118 },
           { tmpEnd := 220, channel_min := 60, channel_max := 60, numPoints := 120 }]) ∧
      fin.endT - 100 =
        ((windowsOf 100
            [{ tmpEnd := 160, channel_min := 58, channel_max := 60, numPoints := 118 },
             { tmpEnd := 220, channel_min := 60, channel_max := 60, numPoints := 120 }]).map
          (fun w => w.2 - w.1)).sum :=
  claim_C2_accepted_windows_gapless
    { start := 40, endT := 100, failed_run := 0 }
    [{ tmpEnd := 160, channel_min := 58, channel_max := 60, numPoints := 118 },
     { tmpEnd := 220, channel_min := 60, channel_max := 60, numPoints := 120 }]
    rfl (by decide)

/-- C1 counterexample: the claim asserts that for a 60-second window
minCount=40 / maxCount=45 is accepted, but the code rejects it: the missing
check fires first (60 - 45 = 15 > 5), so `check_failed_pull` returns `true`
(= failed). -/
theorem claim_C1_counterexample :
    check_failed_pull 40 45 60 = true := by decide

/-- C1 (amended): the evaluator rejects exactly when
`(duration - maxCount) > 5` or `(maxCount - minCount) > 10`, and accepts
otherwise; for a 60-second window maxCount=56 is accepted and maxCount=54
rejected; the spread examples hold for a 50-second window: min=40/max=45
accepted, min=30/max=45 rejected (at 60 seconds both are rejected by the
missing check). -/
theorem claim_C1_evaluator_thresholds :
    (∀ mn mx d : Int,
      check_failed_pull mn mx d = true ↔ (d - mx > 5 ∨ mx - mn > 10)) ∧
    check_failed_pull 56 56 60 = false ∧
    check_failed_pull 54 54 60 = true ∧
    check_failed_pull 40 45 50 = false ∧
    check_failed_pull 30 45 50 = true := by
  refine ⟨?_, by decide, by decide, by decide, by decide⟩
  intro mn mx d
  unfold check_failed_pull SUCCESS_THRESHOLD SUCCESS_THRESHOLD2
  constructor
  · intro h
    by_cases h1 : d - mx > 5
    · exact Or.inl h1
    · by_cases h2 : mx - mn > 10
      · exact Or.inr h2
      · simp [h1, h2] at h
  · rintro (h | h)
    · simp [h]
    · by_cases h1 : d - mx > 5
      · simp [h1]
      · simp [h1, h]

/-- C4 counterexample: with zero productive channels the caller passes
`channel_min = 65536` (its initial value, line 313) and `channel_max = 0`;
for a window duration of 5 seconds the evaluator ACCEPTS
(`missing = 5 - 0 = 5` is not `> 5`, and `delta = 0 - 65536` is negative),
so rejection does not hold for every window duration. -/
theorem claim_C4_counterexample :
    check_failed_pull 65536 0 5 = false := by decide

/-- C4 (amended): when zero channels returned any non-null samples
(`maxCount = 0`, with any `minCount`, including the caller's untouched
initial 65536), the evaluator rejects exactly when the window duration
exceeds the missing-threshold of 5 seconds; scheduler windows always span at
least one sleep interval (20 or 60 seconds), so zero-sample pulls are
rejected there, and no division by zero occurs (the checks are pure
subtractions and comparisons). -/
theorem claim_C4_zero_samples (mn d : Int) (h : d > 5) :
    check_failed_pull mn 0 d = true := by
  unfold check_failed_pull SUCCESS_THRESHOLD
  simp only [sub_zero]
  simp [h]

/-- C4 witness: a concrete 60-second window with no productive channel is
rejected. -/
theorem claim_C4_zero_samples_witness :
    check_failed_pull 65536 0 60 = true :=
  claim_C4_zero_samples 65536 60 (by decide)

/-- C3: on a quality-rejected pull whose incremented streak stays within the
threshold of 3, no points are committed, the streak increments, and the next
cycle's window start equals this cycle's window start (held); on the 4th
consecutive rejection (streak exceeding 3) the collected points ARE
committed, the streak resets to 0, and the next cycle's window start equals
this cycle's end despite the reject verdict. -/
theorem claim_C3_reject_retry_and_force_accept
    (st : LoopState) (tmpEnd mn mx : Int) (pts : Nat)
    (st' : LoopState) (written : Option Nat)
    (hrun : cycleStep st tmpEnd (.samples mn mx pts) = some (st', written))
    (hrej : check_failed_pull mn mx (tmpEnd - windowStart st) = true) :
    (st.failed_run + 1 ≤ 3 →
      written = none ∧ st'.failed_run = st.failed_run + 1 ∧
      windowStart st' = windowStart st) ∧
    (st.failed_run = 3 →
      written = some pts ∧ st'.failed_run = 0 ∧
      windowStart st' = st'.endT ∧ st'.endT = tmpEnd) := by
  unfold cycleStep at hrun
  by_cases hassert : st.failed_run = 0 ∧ ¬ tmpEnd > windowStart st
  · simp [hassert] at hrun
  · simp only [hassert, if_false] at hrun
    simp only [hrej, if_true] at hrun
    constructor
    · intro hle
      have hne : ¬ st.failed_run + 1 > 3 := by omega
      simp only [hne, if_false, Option.some.injEq, Prod.mk.injEq] at hrun
      obtain ⟨h1, h2⟩ := hrun
      subst h1; subst h2
      refine ⟨rfl, rfl, ?_⟩
      unfold windowStart
      simp
    · intro h3
      have hgt : st.failed_run + 1 > 3 := by omega
      simp only [hgt, if_true, Option.some.injEq, Prod.mk.injEq] at hrun
      obtain ⟨h1, h2⟩ := hrun
      subst h1; subst h2
      refine ⟨rfl, rfl, ?_, rfl⟩
      unfold windowStart
      simp

/-- C3 witness: a concrete 4th consecutive rejection (streak 3) force-accepts
and advances, and a concrete 1st rejection (streak 0) holds and commits
nothing. -/
theorem claim_C3_witness :
    ((0 + 1 ≤ 3 → (none : Option Nat) = none ∧ (1 : Nat) = 0 + 1 ∧
        windowStart { start := 160, endT := 220, failed_run := 1 } =
          windowStart ({ start := 100, endT := 160, failed_run := 0 } : LoopState)) ∧
      ((0 : Nat) = 3 → (none : Option Nat) = some 30 ∧ (1 : Nat) = 0 ∧
        windowStart { start := 160, endT := 220, failed_run := 1 } = 220 ∧
        (220 : Int) = 220)) ∧
    ((3 + 1 ≤ 3 → (some 30 : Option Nat) = none ∧ (0 : Nat) = 3 + 1 ∧
        windowStart { start := 100, endT := 220, failed_run := 0 } =
          windowStart ({ start := 100, endT := 160, failed_run := 3 } : LoopState)) ∧
      ((3 : Nat) = 3 → (some 30 : Option Nat) = some 30 ∧ (0 : Nat) = 0 ∧
        windowStart { start := 100, endT := 220, failed_run := 0 } = 220 ∧
        (220 : Int) = 220)) := by
  constructor
  · have h := claim_C3_reject_retry_and_force_accept
      { start := 100, endT := 160, failed_run := 0 } 220 10 20 30
      { start := 160, endT := 220, failed_run := 1 } none (by decide) (by decide)
    exact h
  · have h := claim_C3_reject_retry_and_force_accept
      { start := 100, endT := 160, failed_run := 3 } 220 10 20 30
      { start := 100, endT := 220, failed_run := 0 } (some 30) (by decide) (by decide)
    exact h

/-- C6 counterexample: the claim says an exception INCREMENTS the failure
streak, but the handler executes `S.failed_run = 1` (line 390): from a prior
streak of 2 (two quality rejections) an exception leaves the streak at 1,
not 3. -/
theorem claim_C6_counterexample :
    (cycleStep { start := 100, endT := 160, failed_run := 2 } 220 .exception).map
        (fun r => r.1.failed_run) = some 1 ∧ (1 : Nat) ≠ 2 + 1 := by decide

/-- C6 (amended): when the sample source throws mid-cycle, the cycle is a
hard failure: no points are written, the next cycle's window start equals
the failed cycle's window start, the failure streak is SET to 1 (reset, per
the code comment, so that a full retry window follows service restoration —
not incremented), the handler returns control to the loop (the step yields
a state rather than crashing whenever the streak was nonzero or the window
assert passes), and the next inter-iteration sleep uses the 20-second
failure interval. -/
theorem claim_C6_exception_hard_failure
    (st : LoopState) (tmpEnd : Int) (st' : LoopState) (written : Option Nat)
    (hrun : cycleStep st tmpEnd .exception = some (st', written)) :
    written = none ∧ st'.failed_run = 1 ∧
    windowStart st' = windowStart st ∧
    (∀ interval : Int, sleepSeconds st'.failed_run interval = FAILURE_SECS) ∧
    (∀ s : LoopState, s.failed_run ≠ 0 →
      (cycleStep s tmpEnd .exception).isSome = true) := by
  unfold cycleStep at hrun
  by_cases hassert : st.failed_run = 0 ∧ ¬ tmpEnd > windowStart st
  · simp [hassert] at hrun
  · simp only [hassert, if_false, Option.some.injEq, Prod.mk.injEq] at hrun
    obtain ⟨h1, h2⟩ := hrun
    subst h1; subst h2
    refine ⟨rfl, rfl, ?_, ?_, ?_⟩
    · unfold windowStart
      simp
    · intro interval
      unfold sleepSeconds
      simp
    · intro s hs
      unfold cycleStep
      have hc : ¬ (s.failed_run = 0 ∧ ¬ tmpEnd > windowStart s) := by
        intro h
        exact hs h.1
      rw [if_neg hc]
      rfl

/-- C6 witness: a concrete exception cycle at streak 0 writes nothing, sets
the streak to 1, holds the window start, and selects the failure sleep. -/
theorem claim_C6_witness :
    (none : Option Nat) = none ∧
    ({ start := 160, endT := 220, failed_run := 1 } : LoopState).failed_run = 1 ∧
    windowStart { start := 160, endT := 220, failed_run := 1 } =
      windowStart ({ start := 100, endT := 160, failed_run := 0 } : LoopState) ∧
    (∀ interval : Int,
      sleepSeconds ({ start := 160, endT := 220, failed_run := 1 } : LoopState).failed_run
        interval = FAILURE_SECS) ∧
    (∀ s : LoopState, s.failed_run ≠ 0 →
      (cycleStep s 220 .exception).isSome = true) :=
  claim_C6_exception_hard_failure
    { start := 100, endT := 160, failed_run := 0 } 220
    { start := 160, endT := 220, failed_run := 1 } none (by decide)

/-- C7 counterexample: the `end > start` invariant is only asserted on the
success branch; on the retry branch (`failed_run ≠ 0`, line 281-285) no
check runs, and a stalled clock yields a window with `end = start` that the
controller silently proceeds with: the cycle completes (and is even
accepted, duration 0 with 60-point channels passing both checks). -/
theorem claim_C7_counterexample :
    cycleStep { start := 100, endT := 160, failed_run := 1 } 100
        (.samples 60 60 60) =
      some ({ start := 100, endT := 100, failed_run := 0 }, some 60) ∧
    ¬ (100 : Int) < 100 := by decide

/-- C7 (amended): on the success path (`failed_run = 0`) the controller
enforces `end > start` via `assert(tmpEndingTime > start)`: every state it
produces there satisfies `end > start`, and a violating clock makes the
step fail loudly (`none`, a crash) rather than proceed; on the retry path
(`failed_run ≠ 0`) no such check exists and a non-increasing clock is
silently proceeded past (witnessed by the counterexample). -/
theorem claim_C7_window_invariant_success_path
    (st : LoopState) (tmpEnd : Int) (pull : PullResult)
    (h0 : st.failed_run = 0) :
    (∀ st' written, cycleStep st tmpEnd pull = some (st', written) →
      st'.start < st'.endT) ∧
    (¬ tmpEnd > st.endT → cycleStep st tmpEnd pull = none) := by
  have hws : windowStart st = st.endT := by
    unfold windowStart
    simp [h0]
  constructor
  · intro st' written hrun
    have hse := cycleStep_start_end st tmpEnd pull st' written hrun
    have hgt := cycleStep_assert_passed st tmpEnd pull (st', written) hrun h0
    rw [hse.1, hse.2]
    exact hgt
  · intro hle
    unfold cycleStep
    have hc : st.failed_run = 0 ∧ ¬ tmpEnd > windowStart st :=
      ⟨h0, by rw [hws]; exact hle⟩
    rw [if_pos hc]

/-- C5: the first window start is seeded as `computedEnd - interval`; when
the sink holds a last-persisted timestamp whose whole-second truncation is
strictly after that naive start, the truncated persisted timestamp is used
instead, and otherwise the naive start is kept. -/
theorem claim_C5_startup_seeding (computedEnd interval : Int) :
    initializeStart computedEnd interval none = computedEnd - interval ∧
    (∀ (s : Int) (us : Nat),
      truncateTimestamp s us > computedEnd - interval →
      initializeStart computedEnd interval (some (s, us)) = truncateTimestamp s us) ∧
    (∀ (s : Int) (us : Nat),
      truncateTimestamp s us ≤ computedEnd - interval →
      initializeStart computedEnd interval (some (s, us)) = computedEnd - interval) := by
  refine ⟨rfl, ?_, ?_⟩
  · intro s us h
    simp [initializeStart, h]
  · intro s us h
    have hng : ¬ truncateTimestamp s us > computedEnd - interval := not_lt.mpr h
    simp [initializeStart, hng]

/-- C5 witness: with computed end 100 and interval 60, the naive start is
40; a persisted timestamp 70.5 (after truncation, 70) replaces it, a
persisted timestamp 30.5 does not, and without persisted data the start is
40. -/
theorem claim_C5_witness :
    initializeStart 100 60 none = 100 - 60 ∧
    initializeStart 100 60 (some (70, 500000)) = truncateTimestamp 70 500000 ∧
    initializeStart 100 60 (some (30, 500000)) = 100 - 60 :=
  ⟨(claim_C5_startup_seeding 100 60).1,
   (claim_C5_startup_seeding 100 60).2.1 70 500000 (by decide),
   (claim_C5_startup_seeding 100 60).2.2 30 500000 (by decide)⟩

/-- Whatever branch an account's body takes, its `account['end']` becomes
the lagged wall-clock end of this cycle. -/
theorem acctStep_end (sh : SharedState) (acctEnd tmpEnd : Int)
    (pull : PullResult) (r : AcctOutcome)
    (h : acctStep sh acctEnd tmpEnd pull = some r) :
    r.acctEnd = tmpEnd := by
  cases pull with
  | exception =>
      simp only [acctStep] at h
      split at h
      · exact absurd h (by simp)
      · simp only [Option.some.injEq] at h
        subst h
        rfl
  | samples mn mx pts =>
      simp only [acctStep] at h
      split at h
      · exact absurd h (by simp)
      · split at h
        · split at h
          · simp only [Option.some.injEq] at h
            subst h
            rfl
          · simp only [Option.some.injEq] at h
            subst h
            rfl
        · simp only [Option.some.injEq] at h
          subst h
          rfl

/-- C8 counterexample: with two configured sources, the second source's
window-start computation READS state produced by the first source's cycle:
changing only source A's pull (accept vs. quality-reject) changes source
B's queried window in the same iteration, because `S.failed_run` and the
loop variable `start` are shared across sources. -/
theorem claim_C8_counterexample :
    (twoAccountIteration { failed_run := 0, startVar := 999 } 100 200 160 260
        (.samples 60 60 60) (.samples 60 60 60)).map (fun r => r.winB) ≠
      (twoAccountIteration { failed_run := 0, startVar := 999 } 100 200 160 260
        (.samples 10 60 60) (.samples 60 60 60)).map (fun r => r.winB) := by
  decide

/-- C8 (amended): each source's DeviceIndex and window-end
(`account['end']`) are exclusively per-source — in particular every
account's recorded end is its own lagged wall-clock end, independent of the
other account's pull — but the FailureStreak (`S.failed_run`) and the
window-start variable are process-wide and shared: one source's rejection
alters another source's window-start computation and the iteration's sleep
decision (witnessed by the counterexample). -/
theorem claim_C8_per_account_end_ownership (sh : SharedState)
    (aEnd bEnd ta tb : Int) (pa pb : PullResult) (r : TwoAccountOutcome)
    (h : twoAccountIteration sh aEnd bEnd ta tb pa pb = some r) :
    r.aEnd = ta ∧ r.bEnd = tb := by
  unfold twoAccountIteration at h
  cases ha : acctStep sh aEnd ta pa with
  | none =>
      simp only [ha] at h
      exact absurd h (by simp)
  | some ra =>
      cases hb : acctStep ra.shared bEnd tb pb with
      | none =>
          simp only [ha, hb] at h
          exact absurd h (by simp)
      | some rb =>
          simp only [ha, hb, Option.some.injEq] at h
          subst h
          exact ⟨acctStep_end sh aEnd ta pa ra ha,
                 acctStep_end ra.shared bEnd tb pb rb hb⟩

/-- C8 witness: a concrete two-account iteration in which both ends equal
their own lagged clocks. -/
theorem claim_C8_witness :
    ({ shared := { failed_run := 0, startVar := 200 }, aEnd := 160, bEnd := 260,
        winA := (100, 160), winB := (200, 260) } : TwoAccountOutcome).aEnd = 160 ∧
    ({ shared := { failed_run := 0, startVar := 200 }, aEnd := 160, bEnd := 260,
        winA := (100, 160), winB := (200, 260) } : TwoAccountOutcome).bEnd = 260 :=
  claim_C8_per_account_end_ownership { failed_run := 0, startVar := 999 }
    100 200 160 260 (.samples 60 60 60) (.samples 60 60 60)
    { shared := { failed_run := 0, startVar := 200 }, aEnd := 160, bEnd := 260,
      winA := (100, 160), winB := (200, 260) } (by decide)

/-- Looking up channels whose device ids are all already in the index never
refreshes it. -/
theorem processChannels_all_known (api : List Nat) (gids : List Nat) :
    ∀ st : DeviceIndexState,
      (∀ g ∈ gids, st.deviceIds.contains g = true) →
      processChannels api st gids = st := by
  induction gids with
  | nil =>
      intro st _
      rfl
  | cons g rest ih =>
      intro st h
      have hg : st.deviceIds.contains g = true := h g (List.mem_cons_self g rest)
      have hgm : g ∈ st.deviceIds := by simpa using hg
      have hstep : lookupChannelName api st g = st := by
        simp [lookupChannelName, lookupDeviceName, hgm]
      show List.foldl (lookupChannelName api) (lookupChannelName api st g) rest = st
      rw [hstep]
      exact ih st (fun g2 hg2 => h g2 (List.mem_cons_of_mem g hg2))

/-- C9 counterexample: a single channel whose device id is absent from the
API's device list triggers `populateDevices` TWICE in one cycle (once in
`lookupChannelName`, once again inside the nested `lookupDeviceName`), not
exactly once. -/
theorem claim_C9_counterexample :
    (processChannels [] { deviceIds := [], refreshCount := 0 } [7]).refreshCount = 2 ∧
    (2 : Nat) ≠ 1 := by decide

/-- C9 (amended): when the re-discovery actually resolves the unknown
identities (every looked-up device id is in the API's current device list),
a cycle containing at least one id missing from the index refreshes the
index exactly once for the whole cycle, not once per unknown channel; but
an identity still absent after the refresh re-triggers `populateDevices`
twice per affected channel (counterexample). -/
theorem claim_C9_refresh_once_per_cycle (api : List Nat) (gids : List Nat)
    (st : DeviceIndexState)
    (hapi : ∀ g ∈ gids, api.contains g = true)
    (hmiss : ∃ g ∈ gids, st.deviceIds.contains g = false) :
    (processChannels api st gids).refreshCount = st.refreshCount + 1 := by
  induction gids with
  | nil =>
      obtain ⟨g, hg, _⟩ := hmiss
      exact absurd hg (List.not_mem_nil g)
  | cons g rest ih =>
      by_cases hg : st.deviceIds.contains g = true
      · have hgm : g ∈ st.deviceIds := by simpa using hg
        have hstep : lookupChannelName api st g = st := by
          simp [lookupChannelName, lookupDeviceName, hgm]
        have hmiss' : ∃ g2 ∈ rest, st.deviceIds.contains g2 = false := by
          obtain ⟨g2, hg2, hc2⟩ := hmiss
          rcases List.mem_cons.mp hg2 with h1 | h1
          · subst h1
            rw [hg] at hc2
            exact absurd hc2 (by simp)
          · exact ⟨g2, h1, hc2⟩
        have := ih (fun g2 hg2 => hapi g2 (List.mem_cons_of_mem g hg2)) hmiss'
        show (List.foldl (lookupChannelName api) (lookupChannelName api st g)
          rest).refreshCount = st.refreshCount + 1
        rw [hstep]
        exact this
      · have hgf : st.deviceIds.contains g = false := by
          simpa using hg
        have hga : api.contains g = true := hapi g (List.mem_cons_self g rest)
        have hgm : g ∉ st.deviceIds := by simpa using hgf
        have hgam : g ∈ api := by simpa using hga
        have hstep : lookupChannelName api st g =
            { deviceIds := api, refreshCount := st.refreshCount + 1 } := by
          simp [lookupChannelName, lookupDeviceName, populateDevices, hgm, hgam]
        show (List.foldl (lookupChannelName api) (lookupChannelName api st g)
          rest).refreshCount = st.refreshCount + 1
        rw [hstep]
        have hall : ∀ g2 ∈ rest,
            ({ deviceIds := api, refreshCount := st.refreshCount + 1 } :
              DeviceIndexState).deviceIds.contains g2 = true :=
          fun g2 hg2 => hapi g2 (List.mem_cons_of_mem g hg2)
        have := processChannels_all_known api rest
          { deviceIds := api, refreshCount := st.refreshCount + 1 } hall
        show (processChannels api
          { deviceIds := api, refreshCount := st.refreshCount + 1 } rest).refreshCount =
          st.refreshCount + 1
        rw [this]

/-- C9 witness: two channels of one device missing from the index but
present in the API refresh the index exactly once. -/
theorem claim_C9_witness :
    (processChannels [7] { deviceIds := [], refreshCount := 0 } [7, 7]).refreshCount =
      0 + 1 :=
  claim_C9_refresh_once_per_cycle [7] [7, 7] { deviceIds := [], refreshCount := 0 }
    (by decide) ⟨7, by simp, by decide⟩

/-- C7 witness: at a concrete success-path state, the produced window has
`end > start`, and a non-advancing clock makes the step crash. -/
theorem claim_C7_witness :
    ((∀ st' written,
        cycleStep { start := 40, endT := 100, failed_run := 0 } 160
            (.samples 60 60 60) = some (st', written) →
        st'.start < st'.endT) ∧
      (¬ (160 : Int) > 100 →
        cycleStep { start := 40, endT := 100, failed_run := 0 } 160
            (.samples 60 60 60) = none)) ∧
    cycleStep { start := 40, endT := 100, failed_run := 0 } 90
        (.samples 60 60 60) = none := by
  constructor
  · exact claim_C7_window_invariant_success_path
      { start := 40, endT := 100, failed_run := 0 } 160 (.samples 60 60 60) rfl
  · exact (claim_C7_window_invariant_success_path
      { start := 40, endT := 100, failed_run := 0 } 90 (.samples 60 60 60) rfl).2
      (by decide)

/-- The committed point produced for the non-null reading at position `p` of
the series sits at output index `countSome (take p)` and carries timestamp
`start + i + countSome (take p)`, for any starting index `i`. -/
theorem collectChannel_get {α : Type} (usage : List (Option α)) :
    ∀ (p : Nat) (hp : p < usage.length) (w : α) (start : Int) (i : Nat),
      usage.get ⟨p, hp⟩ = some w →
      ∃ h : countSome (usage.take p) < (collectChannel start i usage).length,
        (collectChannel start i usage).get ⟨countSome (usage.take p), h⟩ =
          (start + i + countSome (usage.take p), w) := by
  induction usage with
  | nil =>
      intro p hp
      exact absurd hp (by simp)
  | cons x rest ih =>
      intro p hp w start i hw
      cases p with
      | zero =>
          have hx : x = some w := hw
          subst hx
          refine ⟨by simp [collectChannel, countSome], ?_⟩
          simp [collectChannel, countSome]
      | succ q =>
          have hq : q < rest.length := by simpa using hp
          have hw' : rest.get ⟨q, hq⟩ = some w := hw
          cases x with
          | none =>
              obtain ⟨h, hg⟩ := ih q hq w start i hw'
              have hcs : countSome ((none :: rest).take (q + 1)) =
                  countSome (rest.take q) := by
                simp [countSome, List.take_succ_cons, List.countP_cons]
              have hlen : countSome ((none :: rest).take (q + 1)) <
                  (collectChannel start i (none :: rest)).length := by
                rw [hcs]
                exact h
              refine ⟨hlen, ?_⟩
              have hidx : (⟨countSome ((none :: rest).take (q + 1)), hlen⟩ :
                  Fin (collectChannel start i (none :: rest)).length) =
                  ⟨countSome (rest.take q), h⟩ := by
                apply Fin.ext
                exact hcs
              rw [hidx, hcs]
              exact hg
          | some v =>
              obtain ⟨h, hg⟩ := ih q hq w start (i + 1) hw'
              have hcs : countSome ((some v :: rest).take (q + 1)) =
                  countSome (rest.take q) + 1 := by
                simp [countSome, List.take_succ_cons, List.countP_cons]
              have hlen : countSome ((some v :: rest).take (q + 1)) <
                  (collectChannel start i (some v :: rest)).length := by
                rw [hcs]
                simpa [collectChannel] using Nat.succ_lt_succ h
              refine ⟨hlen, ?_⟩
              have hget : (collectChannel start i (some v :: rest)).get
                  ⟨countSome (rest.take q) + 1, by
                    simpa [collectChannel] using Nat.succ_lt_succ h⟩ =
                  (collectChannel start (i + 1) rest).get
                    ⟨countSome (rest.take q), h⟩ := rfl
              have hval : (collectChannel start i (some v :: rest)).get
                  ⟨countSome (rest.take q) + 1, by
                    simpa [collectChannel] using Nat.succ_lt_succ h⟩ =
                  (start + (i + 1) + countSome (rest.take q), w) := by
                rw [hget]
                exact hg
              have hidx : (⟨countSome ((some v :: rest).take (q + 1)), hlen⟩ :
                  Fin (collectChannel start i (some v :: rest)).length) =
                  ⟨countSome (rest.take q) + 1, by
                    simpa [collectChannel] using Nat.succ_lt_succ h⟩ := by
                apply Fin.ext
                exact hcs
              rw [hidx, hval]
              have : start + (↑i + 1) + ↑(countSome (rest.take q)) =
                  start + ↑i + (↑(countSome (rest.take q)) + 1) := by ring
              rw [hcs]
              refine Prod.ext ?_ rfl
              push_cast
              ring

/-- In any series, the non-null and null readings partition the length. -/
theorem countSome_add_countNone {α : Type} (l : List (Option α)) :
    countSome l + countNone l = l.length := by
  induction l with
  | nil => simp [countSome, countNone]
  | cons x rest ih =>
      cases x with
      | none =>
          simp only [countSome, countNone, List.countP_cons] at *
          simp [ih]
          omega
      | some v =>
          simp only [countSome, countNone, List.countP_cons] at *
          simp [ih]
          omega

/-- C10: the j-th committed point of a channel carries timestamp
`start + j` where `j` counts only the non-null readings seen so far: the
reading at series position `p` (measured at second `start + p`) is
committed with timestamp `start + countSome (take p)`, which equals
`start + p - (number of nulls before p)` — each preceding null shifts it
one second earlier than measured. -/
theorem claim_C10_null_readings_shift_timestamps {α : Type} (start : Int)
    (usage : List (Option α)) (p : Nat) (hp : p < usage.length) (w : α)
    (hw : usage.get ⟨p, hp⟩ = some w) :
    ∃ h : countSome (usage.take p) < (collectPoints start usage).length,
      (collectPoints start usage).get ⟨countSome (usage.take p), h⟩ =
        (start + countSome (usage.take p), w) ∧
      (countSome (usage.take p) : Int) =
        (p : Int) - (countNone (usage.take p) : Int) := by
  obtain ⟨h, hg⟩ := collectChannel_get usage p hp w start 0 hw
  refine ⟨h, ?_, ?_⟩
  · show (collectChannel start 0 usage).get ⟨countSome (usage.take p), h⟩ =
      (start + (countSome (usage.take p) : Int), w)
    rw [hg]
    simp
  · have hlen : (usage.take p).length = p :=
      List.length_take_of_le (Nat.le_of_lt hp)
    have := countSome_add_countNone (usage.take p)
    rw [hlen] at this
    omega

/-- C10 witness: in the series [some 5, null, some 7] from start 100, the
reading at position 2 is committed at timestamp 101 — one second earlier
than measured — at output index 1, which is 2 minus the one preceding
null. -/
theorem claim_C10_witness :
    ∃ h : countSome (([some 5, none, some 7] : List (Option Int)).take 2) <
        (collectPoints 100 ([some 5, none, some 7] : List (Option Int))).length,
      (collectPoints 100 ([some 5, none, some 7] : List (Option Int))).get
          ⟨countSome (([some 5, none, some 7] : List (Option Int)).take 2), h⟩ =
        ((100 : Int) + (countSome (([some 5, none, some 7] : List (Option Int)).take 2) : Int),
          (7 : Int)) ∧
      (countSome (([some 5, none, some 7] : List (Option Int)).take 2) : Int) =
        (2 : Int) - (countNone (([some 5, none, some 7] : List (Option Int)).take 2) : Int) :=
  claim_C10_null_readings_shift_timestamps (100 : Int)
    ([some 5, none, some 7] : List (Option Int)) 2 (by decide) (7 : Int) (by decide)

end Vuegraf
